import Mathlib

/-!
Verification of the network performance probe `combined-latency-jitter.c`
(packet codec, clock synchronizer, stream framing, exchange loops and
statistics), via a shallow embedding of its C functions.

Machine integers are modelled as `Nat` (for the unsigned 64-bit timestamp
and sequence fields, reduced mod `2^64` where the C code can wrap) and
`Int` (for signed C `int` / `int64_t` values).  The packet header
`packet_t` has `sizeof(packet_t) = 48` on the targeted LP64 platforms:
five `uint64_t` fields (40 bytes) plus one `uint32_t` (4 bytes) padded to
the 8-byte alignment of the flexible payload member.
-/

/-- `2^64`, the modulus of the C `uint64_t` arithmetic. -/
def M64 : Nat := 18446744073709551616

/-- `2^32`, the modulus of the C `uint32_t` arithmetic. -/
def M32 : Nat := 4294967296

/-- `sizeof(packet_t)`: 40 bytes of `uint64_t` fields, a 4-byte
`uint32_t` `packet_size`, and 4 bytes of tail padding. -/
def headerSize : Nat := 48

/-- `INT64_MAX`, the initial value of `min_rtt` in `synchronize_clocks`. -/
def INT64_MAX : Int := 9223372036854775807

/-- The wire record of `combined-latency-jitter.c` (`packet_t`): a fixed
header of five 64-bit timestamps/sequence fields and a 32-bit declared
size, followed by a variable payload of bytes. -/
structure Packet where
  seq_num : Nat
  client_send : Nat
  server_recv : Nat
  server_send : Nat
  client_recv : Nat
  packet_size : Nat
  payload : List Nat
deriving DecidableEq, Inhabited

/-- The deterministic payload pattern of `create_packet`: byte at offset
`i` equals `i mod 256`. -/
def patternList (n : Nat) : List Nat :=
  (List.range n).map (fun i => i % 256)

/-- `create_packet(int packet_size)`.  The C guard
`if (packet_size < sizeof(packet_t))` compares the signed `packet_size`
with the unsigned `sizeof`, so the signed operand is first converted to
`size_t` (reduction mod `2^64`); a negative request therefore does NOT
get bumped to the header size.  `malloc` is then asked for
`(size_t)packet_size` bytes; no real allocator can satisfy a request of
`2^63` bytes or more (beyond `PTRDIFF_MAX`), and `create_packet` treats
allocation failure as fatal (`exit(EXIT_FAILURE)`), modelled as `none`.
On success the whole record is zeroed, the `uint32_t` field
`packet_size` is assigned from the signed variable (reduction mod
`2^32`), and the payload is filled with the pattern over
`packet_size - sizeof(packet_t)` bytes computed in `size_t`. -/
def create_packet (size : Int) : Option Packet :=
  let req : Nat := (size % (18446744073709551616 : Int)).toNat
  let size2 : Int := if req < headerSize then (headerSize : Int) else size
  let req2 : Nat := (size2 % (18446744073709551616 : Int)).toNat
  if req2 ≥ 2 ^ 63 then
    none
  else
    some { seq_num := 0
           client_send := 0
           server_recv := 0
           server_send := 0
           client_recv := 0
           packet_size := (size2 % (4294967296 : Int)).toNat
           payload := patternList (req2 - headerSize) }

/-- `validate_packet`: false when `packet_size < sizeof(packet_t)`,
otherwise checks every payload byte below `packet_size - sizeof(packet_t)`
against the pattern. -/
def validate_packet (p : Packet) : Bool :=
  if p.packet_size < headerSize then
    false
  else
    (List.range (p.packet_size - headerSize)).all
      (fun i => p.payload.getD i 0 == i % 256)

example : (create_packet 64).map validate_packet = some true := by decide
example : (create_packet 100).elim 0 (fun q => q.payload.length) = 52 := by decide
example : create_packet (-1) = none := by decide
example : (create_packet 50).map (fun q => q.packet_size) = some 50 := by decide
example : (create_packet 10).map (fun q => q.packet_size) = some 48 := by decide

/-! ## Clock synchronizer (`synchronize_clocks`) -/

/-- `uint64_t` subtraction `a - b`, reduced mod `2^64`. -/
def usub64 (a b : Nat) : Nat :=
  (M64 + a % M64 - b % M64) % M64

/-- Conversion of a `uint64_t` value to `int64_t` (two's complement
reinterpretation, as on every platform targeted by the C file). -/
def toI64 (v : Nat) : Int :=
  if v % M64 < 2 ^ 63 then ((v % M64 : Nat) : Int) else ((v % M64 : Nat) : Int) - (M64 : Int)

/-- One synchronization round as observed by the client: whether its send
and receive both succeeded, and the four timestamps `t1` (client send,
client clock), `t2 = server_recv`, `t3 = server_send` (server clock,
read back from the echo) and `t4` (client receive, client clock). -/
structure RoundData where
  ok : Bool
  t1 : Nat
  t2 : Nat
  t3 : Nat
  t4 : Nat
deriving DecidableEq, Inhabited

/-- `int64_t rtt = (t4 - t1) - (t3 - t2);` — computed in `uint64_t` and
then converted to `int64_t`. -/
def roundRtt (r : RoundData) : Int :=
  toI64 (usub64 (usub64 r.t4 r.t1) (usub64 r.t3 r.t2))

/-- `int64_t offset = ((t2 - t1) + (t3 - t4)) / 2;` — the sum and the
division by 2 are both performed in `uint64_t`, then converted. -/
def roundOffset (r : RoundData) : Int :=
  toI64 ((usub64 r.t2 r.t1 + usub64 r.t3 r.t4) % M64 / 2)

/-- Loop state of `synchronize_clocks`: `min_rtt`, `best_round`, and the
`offsets` array.  The array is an uninitialized stack variable, so it is
modelled as a total map whose initial contents are arbitrary. -/
structure SyncState where
  minRtt : Int
  bestRound : Nat
  offsets : Nat → Int

/-- Body of round `i` of `synchronize_clocks`: a failed send or receive
executes `continue` (no write at all); a successful round stores
`offsets[i]` and updates `(min_rtt, best_round)` when `rtt < min_rtt`. -/
def syncStep (i : Nat) (r : RoundData) (s : SyncState) : SyncState :=
  if r.ok then
    let offs := fun j => if j = i then roundOffset r else s.offsets j
    if roundRtt r < s.minRtt then
      { minRtt := roundRtt r, bestRound := i, offsets := offs }
    else
      { minRtt := s.minRtt, bestRound := s.bestRound, offsets := offs }
  else s

/-- The `for (int i = 0; i < SYNC_ROUNDS; i++)` loop. -/
def syncLoop : Nat → List RoundData → SyncState → SyncState
  | _, [], s => s
  | i, r :: rs, s => syncLoop (i + 1) rs (syncStep i r s)

/-- `synchronize_clocks` on the client: runs the rounds and returns
`offsets[best_round]`.  `junk` is the indeterminate initial contents of
the uninitialized `offsets` array. -/
def synchronize_clocks (rounds : List RoundData) (junk : Nat → Int) : Int :=
  let s := syncLoop 0 rounds { minRtt := INT64_MAX, bestRound := 0, offsets := junk }
  s.offsets s.bestRound

/-- The `uint64_t` image of a signed clock offset: `o` reduced into
`[0, 2^64)` (two's complement representation of the server-minus-client
clock difference). -/
def offWrap (o : Int) : Nat := (o % (18446744073709551616 : Int)).toNat

/-- Noiseless simulated round: base (client-clock) time `b`, fixed one-way
network delay `d`, server clock ahead of the client clock by the signed
offset `o`, zero server processing time.  All clock readings are
`uint64_t` values (mod `2^64`). -/
def simRound (b d : Nat) (o : Int) : RoundData :=
  { ok := true
    t1 := b % M64
    t2 := (b + d + offWrap o) % M64
    t3 := (b + d + offWrap o) % M64
    t4 := (b + 2 * d) % M64 }

/-- A synchronization round whose send (or receive) failed. -/
def failRound : RoundData :=
  { ok := false, t1 := 0, t2 := 0, t3 := 0, t4 := 0 }

/-- The ten simulated rounds, with per-round base times `bs` and
per-round one-way delays `ds`, all sharing the clock offset `o`. -/
def simRounds (bs ds : Nat → Nat) (o : Int) : List RoundData :=
  (List.range 10).map (fun i => simRound (bs i) (ds i) o)

example :
    synchronize_clocks (simRounds (fun _ => 1000) (fun _ => 5) 42) (fun _ => 0) = 42 := by
  decide
example :
    synchronize_clocks (simRounds (fun _ => 1000) (fun _ => 5) (-1)) (fun _ => 0) =
      9223372036854775807 := by
  decide
example :
    synchronize_clocks (List.replicate 10 failRound) (fun _ => 7) = 7 := by
  decide

lemma syncStep_offsets_ne (i : Nat) (r : RoundData) (s : SyncState) (j : Nat) (h : j ≠ i) :
    (syncStep i r s).offsets j = s.offsets j := by
  unfold syncStep
  by_cases hok : r.ok = true
  · simp only [hok, if_true]
    split <;> simp [h]
  · simp [hok]

lemma syncStep_offsets_eq (i : Nat) (r : RoundData) (s : SyncState) (hok : r.ok = true) :
    (syncStep i r s).offsets i = roundOffset r := by
  unfold syncStep
  simp only [hok, if_true]
  split <;> simp

lemma syncLoop_offsets_lt (rs : List RoundData) (i : Nat) (s : SyncState) (j : Nat)
    (h : j < i) : (syncLoop i rs s).offsets j = s.offsets j := by
  induction rs generalizing i s with
  | nil => rfl
  | cons r rs ih =>
      rw [syncLoop, ih (i + 1) _ (Nat.lt_succ_of_lt h)]
      exact syncStep_offsets_ne i r s j (Nat.ne_of_lt h)

lemma syncLoop_best_range (rs : List RoundData) (i : Nat) (s : SyncState) :
    (syncLoop i rs s).bestRound = s.bestRound ∨
      (i ≤ (syncLoop i rs s).bestRound ∧ (syncLoop i rs s).bestRound < i + rs.length) := by
  induction rs generalizing i s with
  | nil => exact Or.inl rfl
  | cons r rs ih =>
      rw [syncLoop]
      rcases ih (i + 1) (syncStep i r s) with h | h
      · rw [h]
        unfold syncStep
        by_cases hok : r.ok = true
        · simp only [hok, if_true]
          split
          · right
            simp only [List.length_cons]
            omega
          · exact Or.inl rfl
        · simp [hok]
      · right
        simp only [List.length_cons]
        omega

lemma syncLoop_offsets_set (rs : List RoundData) (i : Nat) (s : SyncState) (j : Nat)
    (h1 : i ≤ j) (h2 : j < i + rs.length)
    (hok : ∀ k, k < rs.length → (rs.getD k default).ok = true) :
    (syncLoop i rs s).offsets j = roundOffset (rs.getD (j - i) default) := by
  induction rs generalizing i s with
  | nil => simp at h2; omega
  | cons r rs ih =>
      rw [syncLoop]
      rcases Nat.eq_or_lt_of_le h1 with he | hlt
      · subst he
        rw [syncLoop_offsets_lt rs (i + 1) _ i (Nat.lt_succ_self i)]
        simp only [Nat.sub_self, List.getD_cons_zero]
        exact syncStep_offsets_eq i r s (by simpa using hok 0 (by simp))
      · have := ih (i + 1) (syncStep i r s) hlt (by simp at h2 ⊢; omega)
          (fun k hk => by simpa using hok (k + 1) (by simp; omega))
        rw [this]
        have hj : j - i = (j - (i + 1)) + 1 := by omega
        rw [hj, List.getD_cons_succ]

lemma syncLoop_stable (rs : List RoundData) (i : Nat) (s : SyncState)
    (h : ∀ k, k < rs.length → ¬ (roundRtt (rs.getD k default) < s.minRtt)) :
    (syncLoop i rs s).minRtt = s.minRtt ∧ (syncLoop i rs s).bestRound = s.bestRound := by
  induction rs generalizing i s with
  | nil => exact ⟨rfl, rfl⟩
  | cons r rs ih =>
      rw [syncLoop]
      have hstep : (syncStep i r s).minRtt = s.minRtt ∧
          (syncStep i r s).bestRound = s.bestRound := by
        unfold syncStep
        by_cases hok : r.ok = true
        · have h0 := h 0 (by simp)
          simp only [List.getD_cons_zero] at h0
          simp only [hok, if_true]
          rw [if_neg h0]
          exact ⟨rfl, rfl⟩
        · simp [hok]
      have := ih (i + 1) (syncStep i r s)
        (fun k hk => by
          rw [hstep.1]
          simpa using h (k + 1) (by simp; omega))
      exact ⟨this.1.trans hstep.1, this.2.trans hstep.2⟩

lemma syncLoop_best_min (rs : List RoundData) (i : Nat) (s : SyncState) (j : Nat)
    (h1 : i ≤ j) (h2 : j < i + rs.length)
    (hok : ∀ k, k < rs.length → (rs.getD k default).ok = true)
    (hmin : ∀ k, k < rs.length → i + k ≠ j →
      roundRtt (rs.getD (j - i) default) < roundRtt (rs.getD k default))
    (hs : roundRtt (rs.getD (j - i) default) < s.minRtt) :
    (syncLoop i rs s).bestRound = j := by
  induction rs generalizing i s with
  | nil => simp at h2; omega
  | cons r rs ih =>
      rw [syncLoop]
      rcases Nat.eq_or_lt_of_le h1 with he | hlt
      · subst he
        have hr : r.ok = true := by simpa using hok 0 (by simp)
        simp only [Nat.sub_self, List.getD_cons_zero] at hs
        have hstep : syncStep i r s =
            { minRtt := roundRtt r, bestRound := i, offsets :=
              fun j => if j = i then roundOffset r else s.offsets j } := by
          unfold syncStep
          simp only [hr, if_true, if_pos hs]
        rw [hstep]
        have := syncLoop_stable rs (i + 1)
          { minRtt := roundRtt r, bestRound := i, offsets :=
            fun j => if j = i then roundOffset r else s.offsets j }
          (fun k hk => by
            have := hmin (k + 1) (by simp; omega) (by omega)
            simp only [Nat.sub_self, List.getD_cons_zero, List.getD_cons_succ] at this
            simp only [List.getD_cons_succ]
            omega)
        rw [this.2]
      · have hd : j - i = (j - (i + 1)) + 1 := by omega
        have hji : roundRtt ((r :: rs).getD (j - i) default) < roundRtt r := by
          have := hmin 0 (by simp) (by omega)
          simpa using this
        have hsmin : roundRtt (rs.getD (j - (i + 1)) default) < (syncStep i r s).minRtt := by
          have hval : roundRtt (rs.getD (j - (i + 1)) default) =
              roundRtt ((r :: rs).getD (j - i) default) := by
            rw [hd, List.getD_cons_succ]
          unfold syncStep
          by_cases hokr : r.ok = true
          · simp only [hokr, if_true]
            split <;> simp only [hval] <;> omega
          · simp only [hokr, if_false, Bool.false_eq_true]
            rw [hval]
            exact hs
        have := ih (i + 1) (syncStep i r s) hlt (by simp at h2 ⊢; omega)
          (fun k hk => by simpa using hok (k + 1) (by simp; omega))
          (fun k hk hkj => by
            have := hmin (k + 1) (by simp; omega) (by omega)
            simp only [List.getD_cons_succ] at this
            rw [hd, List.getD_cons_succ] at this
            exact this)
          hsmin
        exact this

lemma offWrap_eq (o : Int) (h0 : 0 ≤ o) (h1 : o < 2 ^ 63) :
    ((offWrap o : Nat) : Int) = o := by
  unfold offWrap
  omega

lemma roundRtt_simRound (b d : Nat) (o : Int) (hd : d < 2 ^ 62) :
    roundRtt (simRound b d o) = 2 * (d : Int) := by
  unfold roundRtt simRound usub64 toI64 M64
  simp only
  split <;> omega

lemma roundOffset_simRound (b d : Nat) (o : Int) (ho0 : 0 ≤ o) (ho1 : o < 2 ^ 63) :
    roundOffset (simRound b d o) = o := by
  have hW := offWrap_eq o ho0 ho1
  unfold roundOffset simRound usub64 toI64 M64
  simp only
  split <;> omega

lemma simRounds_length (bs ds : Nat → Nat) (o : Int) : (simRounds bs ds o).length = 10 := by
  simp [simRounds]

lemma simRounds_getD (bs ds : Nat → Nat) (o : Int) (k : Nat) (hk : k < 10) :
    (simRounds bs ds o).getD k default = simRound (bs k) (ds k) o := by
  unfold simRounds
  rw [List.getD_eq_getElem?_getD, List.getElem?_map, List.getElem?_range hk]
  rfl

/-- **C1** (amended): in the noiseless simulation with per-round one-way
delays `ds`, fixed nonnegative signed clock offset `o` (representable in
`int64_t`) and every round succeeding, `synchronize_clocks` returns
exactly `o` — each round's offset `((t2 - t1) + (t3 - t4)) / 2` equals `o`
— and `best_round` is the round of strictly smallest simulated
`rtt = (t4 - t1) - (t3 - t2) = 2 * delay` when the delays differ.
(The original claim over every signed `o` fails for negative `o`, whose
`uint64_t` offset arithmetic yields `2^63 + o` instead: see the
counterexample.) -/
theorem sync_sim_returns_offset (bs ds : Nat → Nat) (o : Int) (junk : Nat → Int)
    (ho0 : 0 ≤ o) (ho1 : o < 2 ^ 63) (hd : ∀ i, i < 10 → ds i < 2 ^ 62) :
    synchronize_clocks (simRounds bs ds o) junk = o ∧
      (∀ j, j < 10 → (∀ k, k < 10 → k ≠ j → ds j < ds k) →
        (syncLoop 0 (simRounds bs ds o)
            { minRtt := INT64_MAX, bestRound := 0, offsets := junk }).bestRound = j) := by
  have hlen := simRounds_length bs ds o
  have hok : ∀ k, k < (simRounds bs ds o).length →
      ((simRounds bs ds o).getD k default).ok = true := by
    intro k hk
    rw [hlen] at hk
    rw [simRounds_getD _ _ _ k hk]
    rfl
  constructor
  · unfold synchronize_clocks
    have hrange := syncLoop_best_range (simRounds bs ds o) 0
      { minRtt := INT64_MAX, bestRound := 0, offsets := junk }
    have hbest : (syncLoop 0 (simRounds bs ds o)
        { minRtt := INT64_MAX, bestRound := 0, offsets := junk }).bestRound < 10 := by
      rcases hrange with h | h
      · rw [h]
        norm_num
      · omega
    rw [syncLoop_offsets_set (simRounds bs ds o) 0 _ _ (Nat.zero_le _) (by omega) hok,
      Nat.sub_zero, simRounds_getD _ _ _ _ hbest]
    exact roundOffset_simRound _ _ _ ho0 ho1
  · intro j hj huniq
    apply syncLoop_best_min _ 0 _ j (Nat.zero_le _) (by omega) hok
    · intro k hk hkj
      rw [hlen] at hk
      rw [Nat.sub_zero, simRounds_getD _ _ _ j hj, simRounds_getD _ _ _ k hk,
        roundRtt_simRound _ _ _ (hd j hj), roundRtt_simRound _ _ _ (hd k hk)]
      have := huniq k hk (by omega)
      omega
    · rw [Nat.sub_zero, simRounds_getD _ _ _ j hj, roundRtt_simRound _ _ _ (hd j hj)]
      show 2 * ((ds j : Nat) : Int) < INT64_MAX
      have := hd j hj
      unfold INT64_MAX
      omega

/-- **C1** witness: ten rounds with base time 1000, delays
`[5,4,3,2,1,6,7,8,9,10]` and offset `o = 42`: the estimator returns 42
and selects round 4, the round of minimum RTT. -/
theorem sync_sim_returns_offset_witness :
    synchronize_clocks (simRounds (fun _ => 1000) (fun i => [5, 4, 3, 2, 1, 6, 7, 8, 9, 10].getD i 0) 42)
        (fun _ => 0) = 42 ∧
      (syncLoop 0 (simRounds (fun _ => 1000) (fun i => [5, 4, 3, 2, 1, 6, 7, 8, 9, 10].getD i 0) 42)
          { minRtt := INT64_MAX, bestRound := 0, offsets := fun _ => 0 }).bestRound = 4 := by
  have h := sync_sim_returns_offset (fun _ => 1000)
    (fun i => [5, 4, 3, 2, 1, 6, 7, 8, 9, 10].getD i 0) 42 (fun _ => 0)
    (by norm_num) (by norm_num) (by decide)
  exact ⟨h.1, h.2 4 (by norm_num) (by decide)⟩

/-- **C1** counterexample: with fixed delay 5 and fixed signed offset
`o = -1` across all ten rounds (noiseless, all rounds succeed), the
`uint64_t` offset arithmetic makes `synchronize_clocks` return
`2^63 - 1`, not the simulated offset `-1`. -/
theorem sync_negative_offset_counterexample :
    synchronize_clocks (simRounds (fun _ => 1000) (fun _ => 5) (-1)) (fun _ => 0) =
        9223372036854775807 ∧
      (9223372036854775807 : Int) ≠ -1 := by
  constructor
  · decide
  · decide

/-- **C3** (code bug): when every one of the 10 synchronization rounds
fails its send or receive, each round executes `continue` and nothing is
ever written to the `offsets` array; `synchronize_clocks` then returns
`offsets[best_round] = offsets[0]`, the indeterminate initial contents of
that uninitialized stack array — not the 0 the claim describes.  With
initial (garbage) contents 7 the function returns 7. -/
theorem sync_all_fail_returns_uninitialized :
    (∀ junk : Nat → Int, synchronize_clocks (List.replicate 10 failRound) junk = junk 0) ∧
      synchronize_clocks (List.replicate 10 failRound) (fun _ => 7) = 7 := by
  have hstep : ∀ i s, syncStep i failRound s = s := by
    intro i s
    simp [syncStep, failRound]
  have h : ∀ n i s, syncLoop i (List.replicate n failRound) s = s := by
    intro n
    induction n with
    | zero => intro i s; rfl
    | succ n ih =>
        intro i s
        rw [List.replicate_succ, syncLoop, hstep, ih]
  constructor
  · intro junk
    unfold synchronize_clocks
    rw [h 10 0 _]
  · unfold synchronize_clocks
    rw [h 10 0 _]

/-! ## Sequence-number tagging of synchronization packets -/

/-- `sync_packet.seq_num = 0xFFFFFFFF - i`: the literal `0xFFFFFFFF` has
type `unsigned int` (32 bits), so the subtraction happens mod `2^32`
before the widening to the `uint64_t` field. -/
def syncSeqNum (i : Nat) : Nat := (4294967295 - i % M32) % M32

/-- Data packet sequence number of iteration `i`:
`packet->seq_num = i + 1`. -/
def dataSeqNum (i : Nat) : Nat := (i + 1) % M64

/-- The constant `0xFFFFFFFF - 20` against which the TCP server compares
incoming sequence numbers (again `unsigned int` arithmetic). -/
def reservedThreshold : Nat := 4294967275

/-- TCP server test `packet_buffer->seq_num >= 0xFFFFFFFF - 20`. -/
def tcpIsSync (seq : Nat) : Bool := decide (reservedThreshold ≤ seq % M64)

/-- **C2** counterexample: the very first synchronization packet carries
`seq_num = 0xFFFFFFFF = 4294967295`, which is far below the claimed
reserved range at `2^64 - 21`; nevertheless the server classifies it as a
synchronization packet, because the implemented range sits at the top of
the 32-bit space, not the 64-bit space. -/
theorem sync_seq_not_in_u64_range_counterexample :
    syncSeqNum 0 = 4294967295 ∧ ¬ (2 ^ 64 - 21 ≤ syncSeqNum 0) ∧
      tcpIsSync (syncSeqNum 0) = true := by
  refine ⟨by decide, by decide, by decide⟩

/-- **C2** (amended): the reserved range is the top 21 values of the
*32-bit* space, `seq_num ≥ 0xFFFFFFFF - 20 = 2^32 - 21`.  Every
synchronization packet (round `i < 10`) carries
`seq_num = 2^32 - 1 - i`, which lies in that range and is classified as a
synchronization packet by the TCP server; the server classifies exactly
the values `≥ 2^32 - 21` as synchronization packets; and no data packet
sequence number (`i + 1` with the `int`-typed packet count keeping
`i + 1 < 2^31`) ever falls in the range. -/
theorem reserved_range_is_32bit (i : Nat) (hi : i < 10) (n : Nat) (hn : n + 1 < 2 ^ 31) :
    syncSeqNum i = 4294967295 - i ∧
      reservedThreshold ≤ syncSeqNum i ∧
      tcpIsSync (syncSeqNum i) = true ∧
      (∀ s, tcpIsSync s = true ↔ reservedThreshold ≤ s % M64) ∧
      tcpIsSync (dataSeqNum n) = false := by
  have h1 : syncSeqNum i = 4294967295 - i := by
    unfold syncSeqNum M32
    omega
  refine ⟨h1, ?_, ?_, ?_, ?_⟩
  · unfold reservedThreshold
    omega
  · rw [h1]
    unfold tcpIsSync reservedThreshold M64
    simp only [decide_eq_true_eq]
    omega
  · intro s
    unfold tcpIsSync
    simp
  · unfold tcpIsSync dataSeqNum reservedThreshold M64
    simp only [decide_eq_false_iff_not]
    omega

/-- **C2** witness: round 0 and data iteration 99 (the default
100-packet run's last sequence number). -/
theorem reserved_range_is_32bit_witness :
    syncSeqNum 0 = 4294967295 - 0 ∧
      reservedThreshold ≤ syncSeqNum 0 ∧
      tcpIsSync (syncSeqNum 0) = true ∧
      (∀ s, tcpIsSync s = true ↔ reservedThreshold ≤ s % M64) ∧
      tcpIsSync (dataSeqNum 99) = false :=
  reserved_range_is_32bit 0 (by norm_num) 99 (by norm_num)

/-! ## Packet codec: `create_packet` and `validate_packet` -/

lemma patternList_length (n : Nat) : (patternList n).length = n := by
  simp [patternList]

lemma patternList_getD (n i : Nat) (h : i < n) : (patternList n).getD i 0 = i % 256 := by
  unfold patternList
  rw [List.getD_eq_getElem?_getD, List.getElem?_map, List.getElem?_range h]
  rfl

lemma validate_patternList (p : Packet) (hsz : headerSize ≤ p.packet_size)
    (hpl : p.payload = patternList (p.packet_size - headerSize)) :
    validate_packet p = true := by
  unfold validate_packet
  rw [if_neg (by omega)]
  rw [List.all_eq_true]
  intro i hi
  rw [List.mem_range] at hi
  rw [hpl, patternList_getD _ _ hi]
  simp

lemma create_packet_ge (size : Int) (h0 : (48 : Int) ≤ size) (h1 : size < 4294967296) :
    create_packet size = some
      { seq_num := 0, client_send := 0, server_recv := 0, server_send := 0,
        client_recv := 0, packet_size := size.toNat,
        payload := patternList (size.toNat - headerSize) } := by
  have e1 : (size % (18446744073709551616 : Int)).toNat = size.toNat := by omega
  have e2 : (size % (4294967296 : Int)).toNat = size.toNat := by omega
  have hc1 : ¬ (size.toNat < headerSize) := by
    unfold headerSize
    omega
  have hc2 : ¬ (size.toNat ≥ 2 ^ 63) := by omega
  simp only [create_packet, if_neg hc1, if_neg hc2, e1, e2]

lemma create_packet_lt (size : Int) (h0 : 0 ≤ size) (h1 : size < 48) :
    create_packet size = some
      { seq_num := 0, client_send := 0, server_recv := 0, server_send := 0,
        client_recv := 0, packet_size := headerSize, payload := [] } := by
  have hc1 : size.toNat < headerSize := by
    unfold headerSize
    omega
  have e1 : (size % (18446744073709551616 : Int)).toNat = size.toNat := by omega
  have hc2 : ¬ ((((headerSize : Nat) : Int) % (18446744073709551616 : Int)).toNat ≥ 2 ^ 63) := by
    decide
  have e2 : (((headerSize : Nat) : Int) % (18446744073709551616 : Int)).toNat = headerSize := by
    decide
  have e3 : (((headerSize : Nat) : Int) % (4294967296 : Int)).toNat = headerSize := by
    decide
  simp only [create_packet, e1, if_pos hc1, if_neg hc2, e2, e3, Nat.sub_self]
  rfl

/-- **C7**: for every configured size in `[64, 8192]`, `create_packet`
yields a packet that `validate_packet` accepts (the payload byte at
offset `i` is `i mod 256` across the whole payload); changing any single
payload byte to a different byte value makes `validate_packet` reject;
and `validate_packet` rejects every packet whose `packet_size` is below
the header size. -/
theorem validate_create_roundtrip (size : Int) (h0 : (64 : Int) ≤ size) (h1 : size ≤ 8192) :
    ∃ q, create_packet size = some q ∧
      validate_packet q = true ∧
      q.payload.length = size.toNat - headerSize ∧
      (∀ i, i < q.payload.length → q.payload.getD i 0 = i % 256) ∧
      (∀ i v, i < q.payload.length → v < 256 → v ≠ i % 256 →
        validate_packet { q with payload := q.payload.set i v } = false) ∧
      (∀ p : Packet, p.packet_size < headerSize → validate_packet p = false) := by
  have hc := create_packet_ge size (by omega) (by omega)
  refine ⟨_, hc, ?_, ?_, ?_, ?_, ?_⟩
  · exact validate_patternList _ (by simp only; unfold headerSize; omega) rfl
  · simp only [patternList_length]
  · intro i hi
    simp only [patternList_length] at hi
    exact patternList_getD _ _ hi
  · intro i v hi hv256 hv
    simp only [patternList_length] at hi
    unfold validate_packet
    rw [if_neg (by simp only; unfold headerSize; omega)]
    rw [Bool.eq_false_iff]
    intro hall
    rw [List.all_eq_true] at hall
    have hmem := hall i (by rw [List.mem_range]; simp only; omega)
    simp only at hmem
    have hset : ((patternList (size.toNat - headerSize)).set i v).getD i 0 = v := by
      rw [List.getD_eq_getElem?_getD, List.getElem?_set_eq_of_lt _ (by rw [patternList_length]; omega)]
      rfl
    rw [hset] at hmem
    exact hv (by simpa using hmem)
  · intro p hp
    unfold validate_packet
    rw [if_pos hp]

/-- **C7** witness: size 64. -/
theorem validate_create_roundtrip_witness :
    ∃ q, create_packet 64 = some q ∧
      validate_packet q = true ∧
      q.payload.length = (64 : Int).toNat - headerSize ∧
      (∀ i, i < q.payload.length → q.payload.getD i 0 = i % 256) ∧
      (∀ i v, i < q.payload.length → v < 256 → v ≠ i % 256 →
        validate_packet { q with payload := q.payload.set i v } = false) ∧
      (∀ p : Packet, p.packet_size < headerSize → validate_packet p = false) :=
  validate_create_roundtrip 64 (by norm_num) (by norm_num)

/-- **C9** counterexample: `create_packet (-1)` does not return a packet
with `packet_size = max(-1, 48) = 48`; the signed size is converted to
`size_t` in the guard `packet_size < sizeof(packet_t)`, the comparison is
false, and the subsequent huge allocation fails fatally (modelled as
`none`). -/
theorem create_packet_negative_counterexample :
    create_packet (-1) = none := by decide

/-- **C9** (amended): `create_packet` behaves as claimed on all
*nonnegative* sizes below `2^32` — including sizes below the header size
(bumped to 48) and sizes above 8192 (no upper clamp inside
`create_packet`) — returning a zero-headed packet with
`packet_size = max(size, 48)` and the full deterministic pattern, which
`validate_packet` accepts.  For negative sizes the signed-to-unsigned
conversion in the header-size guard skips the bump and the allocation
path fails fatally instead. -/
theorem create_packet_total_nonneg (size : Int) (h0 : 0 ≤ size) (h1 : size < 4294967296) :
    ∃ q, create_packet size = some q ∧
      q.packet_size = max size.toNat headerSize ∧
      q.seq_num = 0 ∧ q.client_send = 0 ∧ q.server_recv = 0 ∧
      q.server_send = 0 ∧ q.client_recv = 0 ∧
      q.payload = patternList (max size.toNat headerSize - headerSize) ∧
      validate_packet q = true := by
  by_cases hc : size < 48
  · have h := create_packet_lt size h0 hc
    have hmax : max size.toNat headerSize = headerSize := by
      unfold headerSize
      omega
    refine ⟨_, h, ?_, rfl, rfl, rfl, rfl, rfl, ?_, ?_⟩
    · simp only [hmax]
    · simp only [hmax, Nat.sub_self]
      rfl
    · exact validate_patternList _ (by simp only; omega)
        (by simp only [Nat.sub_self]; rfl)
  · have h := create_packet_ge size (by omega) h1
    have hmax : max size.toNat headerSize = size.toNat := by
      unfold headerSize
      omega
    refine ⟨_, h, ?_, rfl, rfl, rfl, rfl, rfl, ?_, ?_⟩
    · simp only [hmax]
    · simp only [hmax]
    · exact validate_patternList _ (by simp only; unfold headerSize; omega) rfl

/-- **C9** witness: size 10 (below the header size, bumped to 48). -/
theorem create_packet_total_nonneg_witness :
    ∃ q, create_packet 10 = some q ∧
      q.packet_size = max (10 : Int).toNat headerSize ∧
      q.seq_num = 0 ∧ q.client_send = 0 ∧ q.server_recv = 0 ∧
      q.server_send = 0 ∧ q.client_recv = 0 ∧
      q.payload = patternList (max (10 : Int).toNat headerSize - headerSize) ∧
      validate_packet q = true :=
  create_packet_total_nonneg 10 (by norm_num) (by norm_num)

/-! ## Statistics: jitter as the population standard deviation

The C statistics run in `double`; they are modelled in exact rational
arithmetic, with the final square root of
`jitter = sqrt(std_dev / packets_received)` taken in `ℝ` at the
statement level. -/

/-- `total_latency`: the accumulation loop `total_latency += latencies[i]`. -/
def totalOf (l : List ℚ) : ℚ := l.foldl (fun acc x => acc + x) 0

/-- `avg_latency = total_latency / packets_received`. -/
def avgLatency (l : List ℚ) : ℚ := totalOf l / l.length

/-- The loop `std_dev += pow(latencies[i] - avg_latency, 2)`. -/
def sumSqDev (l : List ℚ) (avg : ℚ) : ℚ := l.foldl (fun acc x => acc + (x - avg) ^ 2) 0

/-- The radicand of `jitter = sqrt(std_dev / packets_received)` as
computed by `run_tcp_client` and `run_udp_client`. -/
def jitterSq (l : List ℚ) : ℚ := sumSqDev l (avgLatency l) / l.length

/-- Modelled from the spec wording: the population mean of the samples. -/
def popMean (l : List ℚ) : ℚ := (∑ i ∈ Finset.range l.length, l.getD i 0) / l.length

/-- Modelled from the spec wording: the population variance of the
samples about their mean — the sum of squared deviations divided by the
sample count (not count minus one). -/
def popVariance (l : List ℚ) : ℚ :=
  (∑ i ∈ Finset.range l.length, (l.getD i 0 - popMean l) ^ 2) / l.length

lemma foldl_add_fn (f : ℚ → ℚ) :
    ∀ (l : List ℚ) (a : ℚ),
      l.foldl (fun acc x => acc + f x) a = a + ∑ i ∈ Finset.range l.length, f (l.getD i 0) := by
  intro l
  induction l with
  | nil => intro a; simp
  | cons x l ih =>
      intro a
      rw [List.foldl_cons, ih (a + f x), List.length_cons, Finset.sum_range_succ']
      simp only [List.getD_cons_succ, List.getD_cons_zero]
      ring

lemma totalOf_eq (l : List ℚ) : totalOf l = ∑ i ∈ Finset.range l.length, l.getD i 0 := by
  unfold totalOf
  rw [foldl_add_fn (fun x => x) l 0, zero_add]

lemma sumSqDev_eq (l : List ℚ) (avg : ℚ) :
    sumSqDev l avg = ∑ i ∈ Finset.range l.length, (l.getD i 0 - avg) ^ 2 := by
  unfold sumSqDev
  rw [foldl_add_fn (fun x => (x - avg) ^ 2) l 0, zero_add]

/-- **C5**: the reported jitter is the population standard deviation of
the one-way-latency samples about their mean (sum of squared deviations
divided by the sample count `n`, not `n - 1`, and not a
successive-difference metric); for the samples `[10, 20, 30]` µs the mean
is 20 and the jitter is `sqrt(200/3) ≈ 8.165` (strictly between 8.16 and
8.17). -/
theorem jitter_is_population_stddev (l : List ℚ) (h : l ≠ []) :
    Real.sqrt (jitterSq l) = Real.sqrt (popVariance l) ∧
      jitterSq l = popVariance l ∧
      avgLatency [10, 20, 30] = 20 ∧
      jitterSq [10, 20, 30] = 200 / 3 ∧
      (816 / 100 : ℝ) < Real.sqrt (jitterSq [10, 20, 30]) ∧
      Real.sqrt (jitterSq [10, 20, 30]) < 817 / 100 := by
  have heq : ∀ m : List ℚ, jitterSq m = popVariance m := by
    intro m
    unfold jitterSq popVariance avgLatency popMean
    rw [totalOf_eq, sumSqDev_eq]
  have hthree : avgLatency [10, 20, 30] = 20 := by
    unfold avgLatency totalOf
    norm_num
  have hj3 : jitterSq [10, 20, 30] = 200 / 3 := by
    unfold jitterSq
    rw [hthree]
    norm_num [sumSqDev]
  have hcast : ((jitterSq [10, 20, 30] : ℚ) : ℝ) = 200 / 3 := by
    rw [hj3]
    norm_num
  refine ⟨by rw [heq], heq l, hthree, hj3, ?_, ?_⟩
  · rw [hcast]
    rw [show (816 / 100 : ℝ) < Real.sqrt (200 / 3) ↔ (816 / 100 : ℝ) ^ 2 < 200 / 3 from
      Real.lt_sqrt (by norm_num)]
    norm_num
  · rw [hcast]
    rw [show Real.sqrt (200 / 3) < (817 / 100 : ℝ) ↔ (200 / 3 : ℝ) < (817 / 100) ^ 2 from
      Real.sqrt_lt' (by norm_num)]
    norm_num

/-- **C5** witness: the sample list `[10, 20, 30]`. -/
theorem jitter_is_population_stddev_witness :
    Real.sqrt (jitterSq [10, 20, 30]) = Real.sqrt (popVariance [10, 20, 30]) ∧
      jitterSq [10, 20, 30] = popVariance [10, 20, 30] ∧
      avgLatency [10, 20, 30] = 20 ∧
      jitterSq [10, 20, 30] = 200 / 3 ∧
      (816 / 100 : ℝ) < Real.sqrt (jitterSq [10, 20, 30]) ∧
      Real.sqrt (jitterSq [10, 20, 30]) < 817 / 100 :=
  jitter_is_population_stddev [10, 20, 30] (by simp)

/-! ## Client per-sample measurement computations -/

/-- `double server_processing = packet->server_send - packet->server_recv;`
(`uint64_t` difference, then converted to `double`, modelled exactly in ℚ). -/
def server_processing_us (p : Packet) : ℚ := (usub64 p.server_send p.server_recv : Nat)

/-- `double rtt = packet->client_recv - packet->client_send;` -/
def rtt_us (p : Packet) : ℚ := (usub64 p.client_recv p.client_send : Nat)

/-- The one-way latency computed by `run_tcp_client`/`run_udp_client`:
with synchronization, `(packet->server_recv - clock_offset) -
packet->client_send` (the signed `clock_offset` is converted to
`uint64_t`, all differences mod `2^64`); without synchronization,
`(rtt - server_processing) / 2.0`. -/
def one_way_latency (timeSync : Bool) (off : Int) (p : Packet) : ℚ :=
  if timeSync then
    ((usub64 (usub64 p.server_recv (offWrap off)) p.client_send : Nat) : ℚ)
  else
    (rtt_us p - server_processing_us p) / 2

lemma usub64_eq_of_le (a b : Nat) (hb : b ≤ a) (ha : a < M64) : usub64 a b = a - b := by
  unfold M64 at ha
  unfold usub64 M64
  omega

/-- **C6**: for a validated sample, `server_processing` is
`server_send - server_recv` and `rtt` is `client_recv - client_send`; the
one-way latency is `(server_recv - offset) - client_send` when
synchronization is enabled and `(rtt - server_processing) / 2` otherwise;
hence with synchronization disabled and zero server processing time the
one-way latency is exactly `rtt / 2`. -/
theorem latency_formulas (p : Packet) (off : Int)
    (hss : p.server_send < M64) (hsr : p.server_recv < M64)
    (hcr : p.client_recv < M64) (hcs : p.client_send < M64)
    (h1 : p.server_recv ≤ p.server_send) (h2 : p.client_send ≤ p.client_recv)
    (h3 : 0 ≤ (p.server_recv : Int) - off - p.client_send)
    (h4 : (p.server_recv : Int) - off - p.client_send < 18446744073709551616) :
    server_processing_us p = (p.server_send : ℚ) - p.server_recv ∧
      rtt_us p = (p.client_recv : ℚ) - p.client_send ∧
      one_way_latency true off p = (((p.server_recv : Int) - off - p.client_send : Int) : ℚ) ∧
      one_way_latency false off p = (rtt_us p - server_processing_us p) / 2 ∧
      (p.server_send = p.server_recv → one_way_latency false off p = rtt_us p / 2) := by
  have hsp : server_processing_us p = (p.server_send : ℚ) - p.server_recv := by
    unfold server_processing_us
    rw [usub64_eq_of_le _ _ h1 hss]
    push_cast [h1]
    ring
  have hrtt : rtt_us p = (p.client_recv : ℚ) - p.client_send := by
    unfold rtt_us
    rw [usub64_eq_of_le _ _ h2 hcr]
    push_cast [h2]
    ring
  refine ⟨hsp, hrtt, ?_, rfl, ?_⟩
  · have hsync : ((usub64 (usub64 p.server_recv (offWrap off)) p.client_send : Nat) : Int) =
        (p.server_recv : Int) - off - p.client_send := by
      have hw : ((offWrap off : Nat) : Int) = off % (18446744073709551616 : Int) := by
        unfold offWrap
        omega
      unfold usub64 M64
      omega
    unfold one_way_latency
    rw [if_pos rfl]
    rw [show (((p.server_recv : Int) - off - p.client_send : Int) : ℚ) =
      (((usub64 (usub64 p.server_recv (offWrap off)) p.client_send : Nat) : Int) : ℚ) by
        rw [hsync]]
    push_cast
    ring
  · intro hzero
    unfold one_way_latency
    rw [if_neg (by simp)]
    rw [hsp, hrtt, hzero]
    ring

/-- A concrete validated sample used as the **C6** witness: timestamps
`client_send = 100`, `server_recv = 150`, `server_send = 150`,
`client_recv = 200`, clock offset 10. -/
def latencyDemoPacket : Packet :=
  { seq_num := 1, client_send := 100, server_recv := 150, server_send := 150,
    client_recv := 200, packet_size := 64, payload := patternList 16 }

/-- **C6** witness: on the demo sample, `server_processing = 0`,
`rtt = 100`, the synchronized one-way latency is `(150 - 10) - 100 = 40`,
and the unsynchronized estimate is `rtt / 2 = 50`. -/
theorem latency_formulas_witness :
    server_processing_us latencyDemoPacket =
        (latencyDemoPacket.server_send : ℚ) - latencyDemoPacket.server_recv ∧
      rtt_us latencyDemoPacket =
        (latencyDemoPacket.client_recv : ℚ) - latencyDemoPacket.client_send ∧
      one_way_latency true 10 latencyDemoPacket =
        (((latencyDemoPacket.server_recv : Int) - 10 - latencyDemoPacket.client_send : Int) : ℚ) ∧
      one_way_latency false 10 latencyDemoPacket =
        (rtt_us latencyDemoPacket - server_processing_us latencyDemoPacket) / 2 ∧
      (latencyDemoPacket.server_send = latencyDemoPacket.server_recv →
        one_way_latency false 10 latencyDemoPacket = rtt_us latencyDemoPacket / 2) :=
  latency_formulas latencyDemoPacket 10 (by decide) (by decide) (by decide) (by decide)
    (by decide) (by decide) (by decide) (by decide)

/-! ## Datagram client loop (`run_udp_client`) -/

/-- Whether iteration `i` of the datagram client loop records a sample:
a `none` reply is the bounded-wait receive timeout (`recvfrom` returned
`<= 0`), logged as a lost packet and skipped with `continue`; a delivered
reply is kept only if `validate_packet` succeeds and the echoed
`seq_num` equals the expected `i + 1`. -/
def udpSampleOk (i : Nat) (reply : Option Packet) : Bool :=
  match reply with
  | none => false
  | some p => validate_packet p && p.seq_num == dataSeqNum i

/-- The iterations of `for (int i = 0; i < num_packets; i++)` that store
a sample into `latencies`/`rtts`, against a channel giving the reply (or
timeout) of each iteration. -/
def run_udp_client_samples (n : Nat) (channel : Nat → Option Packet) : List Nat :=
  (List.range n).filter (fun i => udpSampleOk i (channel i))

/-- Whether the run prints the statistics summary
(`packets_received > 0`) rather than the no-packets notice; either way
the loop has completed without aborting. -/
def udpSummaryEmitted (n : Nat) (channel : Nat → Option Packet) : Bool :=
  decide (0 < (run_udp_client_samples n channel).length)

/-- A faithful echo of data packet `i` (pattern payload intact, expected
sequence number, server stamps filled in). -/
def echoPacket (i : Nat) : Packet :=
  { seq_num := dataSeqNum i, client_send := 0, server_recv := 1, server_send := 1,
    client_recv := 0, packet_size := 64, payload := patternList 16 }

/-- The simulated channel that drops every third packet (iterations with
`3 ∣ i + 1` time out) and echoes the rest faithfully. -/
def dropEveryThird (i : Nat) : Option Packet :=
  if (i + 1) % 3 = 0 then none else some (echoPacket i)

lemma udpSampleOk_echo (i : Nat) : udpSampleOk i (some (echoPacket i)) = true := by
  unfold udpSampleOk
  rw [Bool.and_eq_true]
  constructor
  · exact validate_patternList (echoPacket i)
      (by show headerSize ≤ 64; decide) rfl
  · simp [echoPacket]

lemma count_not_third : ∀ n : Nat,
    ((List.range n).filter (fun i => !((i + 1) % 3 == 0))).length = n - n / 3 := by
  intro n
  induction n with
  | zero => rfl
  | succ n ih =>
      rw [List.range_succ, List.filter_append, List.length_append, ih]
      by_cases h3 : (n + 1) % 3 = 0
      · simp only [List.filter_cons, List.filter_nil, h3]
        simp only [beq_self_eq_true, Bool.not_true, Bool.false_eq_true, if_false,
          List.length_nil]
        omega
      · simp only [List.filter_cons, List.filter_nil]
        rw [if_pos (by simp [h3])]
        simp only [List.length_cons, List.length_nil]
        omega

/-- **C8**: on the datagram transport a receive timeout is a normal loss
event — the iteration records no sample, the loop proceeds — so a client
run of `n` attempts against a channel that drops every third packet and
echoes the rest faithfully records exactly `n - n / 3` samples, and
(for `n ≥ 1`) still completes with the statistics summary emitted. -/
theorem udp_client_drop_every_third (n : Nat) :
    (run_udp_client_samples n dropEveryThird).length = n - n / 3 ∧
      (1 ≤ n → udpSummaryEmitted n dropEveryThird = true) := by
  have hpt : (fun i => udpSampleOk i (dropEveryThird i)) = fun i => !((i + 1) % 3 == 0) := by
    funext i
    unfold dropEveryThird
    by_cases h3 : (i + 1) % 3 = 0
    · rw [if_pos h3]
      simp [udpSampleOk, h3]
    · rw [if_neg h3]
      rw [udpSampleOk_echo i]
      simp [h3]
  have hlen : (run_udp_client_samples n dropEveryThird).length = n - n / 3 := by
    unfold run_udp_client_samples
    rw [hpt, count_not_third]
  refine ⟨hlen, ?_⟩
  intro hn
  unfold udpSummaryEmitted
  rw [decide_eq_true_eq, hlen]
  omega

/-- **C8** witness: nine attempts, three timeouts, six samples. -/
theorem udp_client_drop_every_third_witness :
    (run_udp_client_samples 9 dropEveryThird).length = 6 ∧
      udpSummaryEmitted 9 dropEveryThird = true := by
  have h := udp_client_drop_every_third 9
  exact ⟨by rw [h.1], h.2 (by norm_num)⟩

/-! ## Datagram server (`run_udp_server`) -/

/-- The uniform treatment `run_udp_server` applies to a datagram:
`server_recv` and then `server_send` are stamped (`uint64_t`
timestamps), nothing else changes. -/
def stampPacket (p : Packet) (tRecv tSend : Nat) : Packet :=
  { p with server_recv := tRecv % M64, server_send := tSend % M64 }

/-- One iteration of the `run_udp_server` loop: a `recvfrom` result of
`n` bytes parsed as packet `p`.  `n = 0` models `bytes_received <= 0`
(`continue`, no echo).  Otherwise the packet is stamped and echoed with
`sendto(server_fd, packet_buffer, packet_buffer->packet_size, 0, ...)` —
the byte count sent is the header-declared `packet_size` field, and
there is no `validate_packet` call and no reserved-range check anywhere
on this path. -/
def run_udp_server_step (p : Packet) (n : Nat) (tRecv tSend : Nat) :
    Option (Packet × Nat) :=
  if n = 0 then
    none
  else
    some (stampPacket p tRecv tSend, p.packet_size)

/-- **C10**: for every inbound datagram (any header contents, including
a sequence number in the synchronization-reserved range) received with
`n > 0` bytes, the datagram server echoes exactly the header-declared
`packet_size` bytes after stamping `server_recv` then `server_send`; the
echoed byte count does not depend on the received byte count `n`, and a
reserved-range (synchronization-tagged) datagram gets the identical
stamp-and-echo treatment — there is no reserved-range branch on the
datagram path. -/
theorem udp_server_echoes_declared_size (p : Packet) (n tRecv tSend : Nat) (hn : 0 < n) :
    run_udp_server_step p n tRecv tSend = some (stampPacket p tRecv tSend, p.packet_size) ∧
      (∀ n', 0 < n' → run_udp_server_step p n' tRecv tSend = run_udp_server_step p n tRecv tSend) ∧
      (∀ s, run_udp_server_step { p with seq_num := s } n tRecv tSend =
        some (stampPacket { p with seq_num := s } tRecv tSend,
          ({ p with seq_num := s } : Packet).packet_size)) := by
  have hstep : ∀ q : Packet, run_udp_server_step q n tRecv tSend =
      some (stampPacket q tRecv tSend, q.packet_size) := by
    intro q
    unfold run_udp_server_step
    rw [if_neg (by omega)]
  refine ⟨hstep p, ?_, fun s => hstep _⟩
  intro n' hn'
  unfold run_udp_server_step
  rw [if_neg (by omega), if_neg (by omega)]

/-- **C10** witness: a datagram declaring `packet_size = 64` but received
with only `n = 5` bytes is still echoed with 64 bytes, and the
synchronization-tagged variant is treated identically. -/
theorem udp_server_echoes_declared_size_witness :
    run_udp_server_step latencyDemoPacket 5 7 8 =
        some (stampPacket latencyDemoPacket 7 8, latencyDemoPacket.packet_size) ∧
      (∀ n', 0 < n' → run_udp_server_step latencyDemoPacket n' 7 8 =
        run_udp_server_step latencyDemoPacket 5 7 8) ∧
      (∀ s, run_udp_server_step { latencyDemoPacket with seq_num := s } 5 7 8 =
        some (stampPacket { latencyDemoPacket with seq_num := s } 7 8,
          ({ latencyDemoPacket with seq_num := s } : Packet).packet_size)) :=
  udp_server_echoes_declared_size latencyDemoPacket 5 7 8 (by norm_num)

/-! ## Stream framing (`run_tcp_client` / `run_tcp_server` receive path)

The receive buffer is modelled at the byte level: the wire image of a
`packet_t` is its header fields in little-endian byte order (with the 4
zero padding bytes the `memset` leaves at offsets 44..47) followed by
the payload bytes; `packet_size` lives at byte offsets 40..43. -/

/-- The eight bytes of a little-endian `uint64_t`. -/
def u64LE (v : Nat) : List Nat :=
  [v % 256, v / 256 % 256, v / 65536 % 256, v / 16777216 % 256,
   v / 4294967296 % 256, v / 1099511627776 % 256,
   v / 281474976710656 % 256, v / 72057594037927936 % 256]

/-- The four bytes of a little-endian `uint32_t`. -/
def u32LE (v : Nat) : List Nat :=
  [v % 256, v / 256 % 256, v / 65536 % 256, v / 16777216 % 256]

/-- The in-memory bytes of the `packet_t` header. -/
def encodeHeader (p : Packet) : List Nat :=
  u64LE p.seq_num ++ u64LE p.client_send ++ u64LE p.server_recv ++
    u64LE p.server_send ++ u64LE p.client_recv ++ u32LE p.packet_size ++ [0, 0, 0, 0]

/-- The full wire image of a packet. -/
def encodePacket (p : Packet) : List Nat := encodeHeader p ++ p.payload

/-- `packet_buffer->packet_size`: the little-endian `uint32_t` read at
byte offset 40 of the receive buffer. -/
def parseSize (buf : List Nat) : Nat :=
  buf.getD 40 0 + 256 * buf.getD 41 0 + 65536 * buf.getD 42 0 + 16777216 * buf.getD 43 0

/-- `validate_packet` applied to the raw receive buffer. -/
def validateBytes (buf : List Nat) : Bool :=
  if parseSize buf < headerSize then false
  else
    (List.range (parseSize buf - headerSize)).all
      (fun i => buf.getD (headerSize + i) 0 == i % 256)

/-- The receive side of a stream socket: the bytes still in flight and
the chunk boundaries in which the network has delivered them. -/
structure StreamState where
  data : List Nat
  chunks : List Nat
deriving DecidableEq, Inhabited

/-- One `recv(fd, dst, req, 0)` call on a stream socket: it returns at
most `req` bytes and at most the first pending delivery chunk; with no
pending chunk the peer has closed and `recv` returns 0 bytes. -/
def recvCall (req : Nat) (s : StreamState) : List Nat × StreamState :=
  match s.chunks with
  | [] => ([], s)
  | c :: cs =>
      let n := min req c
      (s.data.take n,
       { data := s.data.drop n, chunks := if n < c then (c - n) :: cs else cs })

/-- Writing received bytes into the packet buffer at a byte offset. -/
def writeBytes (buf : List Nat) (off : Nat) (bytes : List Nat) : List Nat :=
  buf.take off ++ bytes ++ buf.drop (off + bytes.length)

/-- The stream receive of `run_tcp_client` (the data path of
`run_tcp_server` is identical): one `recv` of up to `sizeof(packet_t)`
bytes — 0 bytes means the peer disconnected (`none`) — then
`packet_size` is read from the buffer and, when
`packet_size - bytes_received` is positive, exactly ONE further `recv`
is issued for the remainder.  Returns `bytes_received`, the buffer, and
the remaining stream. -/
def tcpReceivePacket (s : StreamState) (buf : List Nat) :
    Option (Nat × List Nat × StreamState) :=
  let r1 := recvCall headerSize s
  if r1.1.length = 0 then none
  else
    let buf1 := writeBytes buf 0 r1.1
    let remaining : Int := (parseSize buf1 : Int) - r1.1.length
    if 0 < remaining then
      let r2 := recvCall remaining.toNat r1.2
      some (r1.1.length + r2.1.length, writeBytes buf1 r1.1.length r2.1, r2.2)
    else
      some (r1.1.length, buf1, r1.2)

lemma encodeHeader_length (p : Packet) : (encodeHeader p).length = headerSize := by
  simp [encodeHeader, u64LE, u32LE, headerSize]

lemma parseSize_encodeHeader (p : Packet) (rest : List Nat) (h : p.packet_size < 4294967296) :
    parseSize (encodeHeader p ++ rest) = p.packet_size := by
  have e40 : (encodeHeader p ++ rest).getD 40 0 = p.packet_size % 256 := rfl
  have e41 : (encodeHeader p ++ rest).getD 41 0 = p.packet_size / 256 % 256 := rfl
  have e42 : (encodeHeader p ++ rest).getD 42 0 = p.packet_size / 65536 % 256 := rfl
  have e43 : (encodeHeader p ++ rest).getD 43 0 = p.packet_size / 16777216 % 256 := rfl
  unfold parseSize
  rw [e40, e41, e42, e43]
  omega

lemma getD_append_left (l1 l2 : List Nat) (i : Nat) (h : i < l1.length) :
    (l1 ++ l2).getD i 0 = l1.getD i 0 := by
  rw [List.getD_eq_getElem?_getD, List.getElem?_append_left h, ← List.getD_eq_getElem?_getD]

lemma getD_append_right_len (l1 l2 : List Nat) (i : Nat) :
    (l1 ++ l2).getD (l1.length + i) 0 = l2.getD i 0 := by
  rw [List.getD_eq_getElem?_getD, List.getElem?_append_right (Nat.le_add_right _ _),
    Nat.add_sub_cancel_left, ← List.getD_eq_getElem?_getD]

lemma validateBytes_header_pattern (p : Packet) (rest : List Nat)
    (hsz : p.packet_size = headerSize + p.payload.length)
    (hlt : p.packet_size < 4294967296)
    (hpat : p.payload = patternList p.payload.length) :
    validateBytes (encodeHeader p ++ (p.payload ++ rest)) = true := by
  unfold validateBytes
  rw [parseSize_encodeHeader p _ hlt]
  rw [if_neg (by omega)]
  rw [List.all_eq_true]
  intro i hi
  rw [List.mem_range] at hi
  have hi' : i < p.payload.length := by omega
  have h1 : (encodeHeader p ++ (p.payload ++ rest)).getD (headerSize + i) 0 =
      (p.payload ++ rest).getD i 0 := by
    rw [← encodeHeader_length p, getD_append_right_len]
  have h2 : (p.payload ++ rest).getD i 0 = p.payload.getD i 0 :=
    getD_append_left _ _ _ hi'
  simp only [h1, h2]
  rw [hpat, patternList_getD _ _ hi']
  simp

/-- **C4** (amended): when the stream delivers the full header in the
first read and makes the whole remaining payload available to the
(single) follow-up read, the receive routine reconstructs the packet —
it returns `bytes_received = packet_size` and the buffer validates.
(The routine reads up to the header length once and then issues at most
ONE further read; it does not continue until all remaining bytes have
arrived, so a payload split across more than one delivery chunk is left
incomplete: see the counterexample.) -/
theorem stream_header_then_payload_reconstructs (p : Packet) (buf : List Nat) (k : Nat)
    (hsz : p.packet_size = headerSize + p.payload.length)
    (hlt : p.packet_size < 4294967296)
    (hpat : p.payload = patternList p.payload.length)
    (hk : p.payload.length ≤ k) :
    (tcpReceivePacket { data := encodePacket p, chunks := [headerSize, k] } buf).map
        (fun r => (r.1, validateBytes r.2.1)) = some (p.packet_size, true) := by
  have h48 := encodeHeader_length p
  have hwt : (encodePacket p).take headerSize = encodeHeader p := by
    unfold encodePacket
    rw [← h48, List.take_left]
  have hwd : (encodePacket p).drop headerSize = p.payload := by
    unfold encodePacket
    rw [← h48, List.drop_left]
  have hr1 : recvCall headerSize { data := encodePacket p, chunks := [headerSize, k] } =
      (encodeHeader p, { data := p.payload, chunks := [k] }) := by
    unfold recvCall
    simp only [min_self, lt_self_iff_false, if_false]
    rw [hwt, hwd]
  have hbuf1 : writeBytes buf 0 (encodeHeader p) = encodeHeader p ++ buf.drop headerSize := by
    simp [writeBytes, h48]
  have hps1 : parseSize (writeBytes buf 0 (encodeHeader p)) = p.packet_size := by
    rw [hbuf1, parseSize_encodeHeader p _ hlt]
  simp only [tcpReceivePacket, hr1]
  rw [if_neg (by rw [h48]; unfold headerSize; omega)]
  simp only [hps1, h48]
  by_cases hlen : p.payload.length = 0
  · rw [if_neg (by unfold headerSize at hsz ⊢; omega)]
    rw [Option.map_some']
    simp only [Option.some.injEq, Prod.mk.injEq]
    constructor
    · unfold headerSize at hsz ⊢
      omega
    · rw [hbuf1]
      have hnil : encodeHeader p ++ buf.drop headerSize =
          encodeHeader p ++ (p.payload ++ (buf.drop headerSize).drop p.payload.length) := by
        rw [List.eq_nil_of_length_eq_zero hlen]
        simp
      rw [hnil]
      exact validateBytes_header_pattern p _ hsz hlt hpat
  · rw [if_pos (by unfold headerSize at hsz ⊢; omega)]
    have hton : ((p.packet_size : Int) - ((headerSize : Nat) : Int)).toNat = p.payload.length := by
      unfold headerSize at hsz ⊢
      omega
    rw [hton]
    have hr2 : recvCall p.payload.length { data := p.payload, chunks := [k] } =
        (p.payload,
          { data := ([] : List Nat),
            chunks := if p.payload.length < k then [k - p.payload.length] else [] }) := by
      unfold recvCall
      simp only [Nat.min_eq_left hk, List.take_length, List.drop_length]
    rw [hr2]
    rw [Option.map_some']
    simp only [Option.some.injEq, Prod.mk.injEq]
    constructor
    · unfold headerSize at hsz ⊢
      omega
    · have hbuf2 : writeBytes (writeBytes buf 0 (encodeHeader p)) headerSize p.payload =
          encodeHeader p ++ (p.payload ++ (buf.drop headerSize).drop p.payload.length) := by
        rw [hbuf1]
        unfold writeBytes
        rw [← h48, List.take_left, List.drop_append, List.append_assoc]
      rw [hbuf2]
      exact validateBytes_header_pattern p _ hsz hlt hpat

/-- A 64-byte data packet used for the stream-framing witness and
counterexample. -/
def demoPacket64 : Packet :=
  { seq_num := 1, client_send := 11, server_recv := 0, server_send := 0,
    client_recv := 0, packet_size := 64, payload := patternList 16 }

/-- **C4** witness: the 64-byte packet delivered as header (48 bytes)
then the full 16-byte payload is reconstructed and validates. -/
theorem stream_header_then_payload_reconstructs_witness :
    (tcpReceivePacket { data := encodePacket demoPacket64, chunks := [headerSize, 16] }
        (List.replicate 64 0)).map
        (fun r => (r.1, validateBytes r.2.1)) = some (demoPacket64.packet_size, true) :=
  stream_header_then_payload_reconstructs demoPacket64 (List.replicate 64 0) 16
    (by decide) (by decide) (by decide) (by decide)

/-- **C4** counterexample: the same 64-byte packet delivered in chunks
of 48, 8 and 8 bytes.  The routine reads the 48-byte header, issues its
single follow-up read, obtains only 8 of the 16 remaining bytes, and
stops at `bytes_received = 56` even though 8 more bytes are still in
flight (the peer has not closed); the reconstructed buffer fails
`validate`.  The claim that the receiver continues reading until all
`packet_size - header_size` bytes have arrived (so that a payload split
across more than one read still validates) is false. -/
theorem stream_split_payload_counterexample :
    (tcpReceivePacket { data := encodePacket demoPacket64, chunks := [headerSize, 8, 8] }
        (List.replicate 64 0)).map
        (fun r => (r.1, validateBytes r.2.1, r.2.2.data.length, r.2.2.chunks)) =
      some (56, false, 8, [8]) ∧
      56 ≠ demoPacket64.packet_size := by
  refine ⟨by decide, by decide⟩
